import Mathlib

/-!
Shallow embedding of `contracts/DonationTracker.sol` (Solidity ^0.8.20).

Addresses are modelled as `Nat` (0 is the zero address), `uint256` values as
`Nat` with the checked-arithmetic bound `2^256` made explicit: Solidity 0.8
reverts a transaction whose addition would reach `2^256`, which the embedding
renders as an `overflow` error.  Solidity mappings are total functions whose
default value is the zero-initialised struct, exactly as in the EVM storage
model.  Each external function becomes a Lean function from the pre-state and
the call's arguments to `Except Err ContractState`; a `require` failure or an
arithmetic overflow is an `error`, and the transaction semantics (`step`)
leaves the state unchanged on an error, which is the EVM revert.
The external call `msg.sender.call{value: amount}("")` inside `withdraw` is
modelled as a boolean oracle `payoutOk` passed with the operation.
-/

namespace DonationTracker

/-- Checked-arithmetic bound of `uint256`: a sum reaching this value reverts. -/
def UINT_MAX : Nat := 2 ^ 256

/-- The `NGO` struct of the contract.  The Solidity field `exists` is named
`existsFlag` because `exists` is a reserved word in Lean. -/
structure NGO where
  wallet : Nat
  name : String
  metadataCID : String
  approved : Bool
  totalReceived : Nat
  totalWithdrawn : Nat
  description : String
  website : String
  contact : String
  existsFlag : Bool
deriving Repr, DecidableEq

/-- The `Donation` struct of the contract. -/
structure Donation where
  id : Nat
  donor : Nat
  ngo : Nat
  amount : Nat
  timestamp : Nat
  message : String
  proofCID : String
deriving Repr, DecidableEq

/-- The zero-initialised `NGO` struct: what `ngos[a]` reads before any write. -/
def zeroNGO : NGO :=
  { wallet := 0, name := "", metadataCID := "", approved := false,
    totalReceived := 0, totalWithdrawn := 0, description := "", website := "",
    contact := "", existsFlag := false }

/-- The zero-initialised `Donation` struct: `id = 0` marks "not found". -/
def zeroDonation : Donation :=
  { id := 0, donor := 0, ngo := 0, amount := 0, timestamp := 0,
    message := "", proofCID := "" }

/-- The contract's storage, plus the contract's ether `balance`
(`address(this).balance`), which `donate` credits and `withdraw` debits. -/
structure ContractState where
  owner : Nat
  nextDonationId : Nat
  ngos : Nat → NGO
  donations : Nat → Donation
  pendingWithdrawals : Nat → Nat
  ngoAddresses : List Nat
  donationIds : List Nat
  balance : Nat

/-- Point update of a storage mapping. -/
def mapUpdate {α : Type} (m : Nat → α) (k : Nat) (v : α) : Nat → α :=
  fun a => if a = k then v else m a

/-- The constructor: `owner = msg.sender; nextDonationId = 1`. -/
def initState (deployer : Nat) : ContractState :=
  { owner := deployer, nextDonationId := 1,
    ngos := fun _ => zeroNGO, donations := fun _ => zeroDonation,
    pendingWithdrawals := fun _ => 0,
    ngoAddresses := [], donationIds := [], balance := 0 }

/-- One error per distinct `require` message of the contract, plus `overflow`
for a checked-arithmetic revert. -/
inductive Err where
  | onlyOwner
  | ngoDoesNotExist
  | ngoNotApproved
  | alreadyRegistered
  | emptyName
  | amountNotPositive
  | donationDoesNotExist
  | onlyRecipientNGO
  | proofAlreadyAdded
  | insufficientBalance
  | withdrawalFailed
  | zeroAddress
  | overflow
deriving Repr, DecidableEq

/-- `registerNGO`: create the caller's NGO record and push the caller onto
`ngoAddresses`. -/
def registerNGO (s : ContractState) (sender : Nat)
    (name metadataCID description website contact : String) :
    Except Err ContractState :=
  if (s.ngos sender).existsFlag then .error .alreadyRegistered
  else if name.length = 0 then .error .emptyName
  else
    let newNGO : NGO :=
      { wallet := sender, name := name, metadataCID := metadataCID,
        approved := false, totalReceived := 0, totalWithdrawn := 0,
        description := description, website := website, contact := contact,
        existsFlag := true }
    .ok { s with ngos := mapUpdate s.ngos sender newNGO,
                 ngoAddresses := s.ngoAddresses ++ [sender] }

/-- `approveNGO` (modifiers `onlyOwner`, `ngoExists`): set the approval flag. -/
def approveNGO (s : ContractState) (sender ngoWallet : Nat) (approved : Bool) :
    Except Err ContractState :=
  if sender ≠ s.owner then .error .onlyOwner
  else if (s.ngos ngoWallet).existsFlag = false then .error .ngoDoesNotExist
  else .ok { s with ngos := mapUpdate s.ngos ngoWallet
                      { s.ngos ngoWallet with approved := approved } }

/-- `donate` (modifier `ngoExists`): allocate `nextDonationId`, store the
donation, push its id, credit `totalReceived` and `pendingWithdrawals`.
`msgValue` is `msg.value` (credited to the contract balance on success) and
`timestamp` is `block.timestamp`. -/
def donate (s : ContractState) (sender ngoWallet msgValue timestamp : Nat)
    (message : String) : Except Err ContractState :=
  if (s.ngos ngoWallet).existsFlag = false then .error .ngoDoesNotExist
  else if (s.ngos ngoWallet).approved = false then .error .ngoNotApproved
  else if msgValue = 0 then .error .amountNotPositive
  else if UINT_MAX ≤ s.nextDonationId + 1 then .error .overflow
  else if UINT_MAX ≤ (s.ngos ngoWallet).totalReceived + msgValue then .error .overflow
  else if UINT_MAX ≤ s.pendingWithdrawals ngoWallet + msgValue then .error .overflow
  else
    let donationId := s.nextDonationId
    let newDonation : Donation :=
      { id := donationId, donor := sender, ngo := ngoWallet,
        amount := msgValue, timestamp := timestamp, message := message,
        proofCID := "" }
    .ok { s with
      nextDonationId := s.nextDonationId + 1,
      donations := mapUpdate s.donations donationId newDonation,
      donationIds := s.donationIds ++ [donationId],
      ngos := mapUpdate s.ngos ngoWallet
        { s.ngos ngoWallet with
          totalReceived := (s.ngos ngoWallet).totalReceived + msgValue },
      pendingWithdrawals := mapUpdate s.pendingWithdrawals ngoWallet
        (s.pendingWithdrawals ngoWallet + msgValue),
      balance := s.balance + msgValue }

/-- `addProof` (modifier `onlyApprovedNGO`): write-once guard is
`bytes(donations[donationId].proofCID).length == 0` — it tests the STORED
value, never the argument `cid`. -/
def addProof (s : ContractState) (sender donationId : Nat) (cid : String) :
    Except Err ContractState :=
  if ((s.ngos sender).existsFlag && (s.ngos sender).approved) = false then
    .error .ngoNotApproved
  else if (s.donations donationId).id = 0 then .error .donationDoesNotExist
  else if (s.donations donationId).ngo ≠ sender then .error .onlyRecipientNGO
  else if (s.donations donationId).proofCID.length ≠ 0 then .error .proofAlreadyAdded
  else .ok { s with donations := mapUpdate s.donations donationId
                      { s.donations donationId with proofCID := cid } }

/-- `withdraw` (modifier `onlyApprovedNGO`): debit the pending balance,
credit `totalWithdrawn`, then perform the external payout; a failed payout
(`require(success)`) reverts the whole transaction, so no debit survives it. -/
def withdraw (s : ContractState) (sender amount : Nat) (payoutOk : Bool) :
    Except Err ContractState :=
  if ((s.ngos sender).existsFlag && (s.ngos sender).approved) = false then
    .error .ngoNotApproved
  else if amount = 0 then .error .amountNotPositive
  else if s.pendingWithdrawals sender < amount then .error .insufficientBalance
  else if UINT_MAX ≤ (s.ngos sender).totalWithdrawn + amount then .error .overflow
  else if payoutOk = false then .error .withdrawalFailed
  else .ok { s with
    pendingWithdrawals := mapUpdate s.pendingWithdrawals sender
      (s.pendingWithdrawals sender - amount),
    ngos := mapUpdate s.ngos sender
      { s.ngos sender with
        totalWithdrawn := (s.ngos sender).totalWithdrawn + amount },
    balance := s.balance - amount }

/-- `transferOwnership` (modifier `onlyOwner`). -/
def transferOwnership (s : ContractState) (sender newOwner : Nat) :
    Except Err ContractState :=
  if sender ≠ s.owner then .error .onlyOwner
  else if newOwner = 0 then .error .zeroAddress
  else .ok { s with owner := newOwner }

/-- `getContractBalance`: `address(this).balance`. -/
def getContractBalance (s : ContractState) : Nat := s.balance

/-- `getPendingWithdrawal`. -/
def getPendingWithdrawal (s : ContractState) (ngoWallet : Nat) : Nat :=
  s.pendingWithdrawals ngoWallet

/-- `getDonationsByNGO`: first loop counts the matches over all of
`donationIds`, second loop fills the result array in the same order. -/
def getDonationsByNGO (s : ContractState) (ngoWallet : Nat) : List Nat :=
  let _count := s.donationIds.foldl
    (fun c i => if (s.donations i).ngo = ngoWallet then c + 1 else c) 0
  s.donationIds.foldl
    (fun acc i => if (s.donations i).ngo = ngoWallet then acc ++ [i] else acc) []

/-- `getDonationsByNGO` instrumented with a loop-iteration counter: the pair's
second component counts how many entries of `donationIds` the two `for` loops
of the source read (each loop runs over the whole array). -/
def getDonationsByNGOInstr (s : ContractState) (ngoWallet : Nat) :
    List Nat × Nat :=
  let countLoop := s.donationIds.foldl
    (fun (p : Nat × Nat) i =>
      (if (s.donations i).ngo = ngoWallet then p.1 + 1 else p.1, p.2 + 1))
    (0, 0)
  let fillLoop := s.donationIds.foldl
    (fun (p : List Nat × Nat) i =>
      (if (s.donations i).ngo = ngoWallet then p.1 ++ [i] else p.1, p.2 + 1))
    ([], 0)
  (fillLoop.1, countLoop.2 + fillLoop.2)

/-- One external transaction against the contract. -/
inductive Op where
  | register (sender : Nat) (name metadataCID description website contact : String)
  | approve (sender ngoWallet : Nat) (approved : Bool)
  | donate (sender ngoWallet msgValue timestamp : Nat) (message : String)
  | addProof (sender donationId : Nat) (cid : String)
  | withdraw (sender amount : Nat) (payoutOk : Bool)
  | transferOwnership (sender newOwner : Nat)

/-- Dispatch one operation. -/
def apply (s : ContractState) : Op → Except Err ContractState
  | .register sender n m d w c => registerNGO s sender n m d w c
  | .approve sender w a => approveNGO s sender w a
  | .donate sender w v t msg => donate s sender w v t msg
  | .addProof sender i cid => addProof s sender i cid
  | .withdraw sender a ok => withdraw s sender a ok
  | .transferOwnership sender o => transferOwnership s sender o

/-- Transaction semantics: a reverted call leaves the storage untouched. -/
def step (s : ContractState) (op : Op) : ContractState :=
  match apply s op with
  | .ok s' => s'
  | .error _ => s

/-- Run a sequence of transactions from the freshly deployed contract. -/
def execOps (deployer : Nat) (ops : List Op) : ContractState :=
  ops.foldl step (initState deployer)

@[simp]
theorem mapUpdate_same {α : Type} (m : Nat → α) (k : Nat) (v : α) :
    mapUpdate m k v k = v := by
  simp [mapUpdate]

theorem mapUpdate_ne {α : Type} {m : Nat → α} {k a : Nat} {v : α} (h : a ≠ k) :
    mapUpdate m k v a = m a := by
  simp [mapUpdate, h]

theorem sum_map_update_not_mem (l : List Nat) (f : Nat → Nat) (k v : Nat)
    (h : k ∉ l) : (l.map (mapUpdate f k v)).sum = (l.map f).sum := by
  induction l with
  | nil => rfl
  | cons a t ih =>
    simp only [List.mem_cons, not_or] at h
    simp [mapUpdate_ne (Ne.symm h.1), ih h.2]

theorem sum_map_update (l : List Nat) (f : Nat → Nat) (k v : Nat)
    (hnd : l.Nodup) (hmem : k ∈ l) :
    (l.map (mapUpdate f k v)).sum + f k = (l.map f).sum + v := by
  induction l with
  | nil => cases hmem
  | cons a t ih =>
    rw [List.nodup_cons] at hnd
    rcases List.mem_cons.mp hmem with h | h
    · subst h
      simp [sum_map_update_not_mem t f k v hnd.1]
      omega
    · have hak : a ≠ k := fun e => hnd.1 (e ▸ h)
      simp only [List.map_cons, List.sum_cons, mapUpdate_ne hak]
      have := ih hnd.2 h
      omega

theorem le_sum_of_mem (l : List Nat) (f : Nat → Nat) (k : Nat) (h : k ∈ l) :
    f k ≤ (l.map f).sum := by
  induction l with
  | nil => cases h
  | cons a t ih =>
    rcases List.mem_cons.mp h with h | h
    · subst h; simp
    · simp only [List.map_cons, List.sum_cons]
      exact le_add_of_nonneg_of_le (Nat.zero_le _) (ih h)

/-- The state invariant maintained by every transaction: per-organization
conservation, zero records for unregistered addresses, `ngoAddresses` lists
exactly the registered addresses once each, the contract balance equals the
sum of the pending balances, and `donationIds` is exactly `1, …,
nextDonationId - 1` with the stored records keyed consistently. -/
structure Inv (s : ContractState) : Prop where
  conserve : ∀ a, s.pendingWithdrawals a + (s.ngos a).totalWithdrawn
    = (s.ngos a).totalReceived
  received_lt : ∀ a, (s.ngos a).totalReceived < UINT_MAX
  unregistered : ∀ a, (s.ngos a).existsFlag = false →
    s.ngos a = zeroNGO ∧ s.pendingWithdrawals a = 0
  mem_addresses : ∀ a, (s.ngos a).existsFlag = true ↔ a ∈ s.ngoAddresses
  nodupAddresses : s.ngoAddresses.Nodup
  balance_eq : s.balance = (s.ngoAddresses.map s.pendingWithdrawals).sum
  ids_range : s.donationIds = List.range' 1 (s.nextDonationId - 1)
  nextId_pos : 1 ≤ s.nextDonationId
  donation_id : ∀ i, i ∈ s.donationIds → (s.donations i).id = i
  donation_absent : ∀ i, i ∉ s.donationIds → s.donations i = zeroDonation

theorem uint_max_pos : 0 < UINT_MAX := by
  simp [UINT_MAX]

theorem inv_init (deployer : Nat) : Inv (initState deployer) where
  conserve := fun _ => rfl
  received_lt := fun _ => uint_max_pos
  unregistered := fun _ _ => ⟨rfl, rfl⟩
  mem_addresses := fun a => by simp [initState, zeroNGO]
  nodupAddresses := List.nodup_nil
  balance_eq := rfl
  ids_range := rfl
  nextId_pos := Nat.le_refl 1
  donation_id := fun i h => by cases h
  donation_absent := fun _ _ => rfl

theorem inv_registerNGO {s s' : ContractState} {sender : Nat}
    {n m d w c : String} (hs : Inv s)
    (h : registerNGO s sender n m d w c = .ok s') : Inv s' := by
  rw [registerNGO] at h
  split at h
  · cases h
  split at h
  · cases h
  next hex _ =>
  injection h with h
  subst h
  have hnotmem : sender ∉ s.ngoAddresses := fun hm =>
    hex (((hs.mem_addresses sender).mpr hm) ▸ rfl)
  have hzero := hs.unregistered sender (by simpa using hex)
  refine ⟨?_, ?_, ?_, ?_, ?_, ?_, hs.ids_range, hs.nextId_pos,
    hs.donation_id, hs.donation_absent⟩
  · intro a
    by_cases ha : a = sender
    · subst ha
      simp [hzero.2]
    · simp only [mapUpdate_ne ha]
      exact hs.conserve a
  · intro a
    by_cases ha : a = sender
    · subst ha; simpa using uint_max_pos
    · simp only [mapUpdate_ne ha]
      exact hs.received_lt a
  · intro a ha
    by_cases h : a = sender
    · subst h; simp at ha
    · simp only [mapUpdate_ne h] at ha ⊢
      exact hs.unregistered a ha
  · intro a
    by_cases h : a = sender
    · subst h; simp
    · simp only [mapUpdate_ne h]
      simpa [h] using hs.mem_addresses a
  · simpa [List.nodup_append] using ⟨hs.nodupAddresses, hnotmem⟩
  · simp [sum_map_update_not_mem _ _ _ _ hnotmem, hzero.2, hs.balance_eq]

theorem inv_approveNGO {s s' : ContractState} {sender ngoWallet : Nat}
    {approved : Bool} (hs : Inv s)
    (h : approveNGO s sender ngoWallet approved = .ok s') : Inv s' := by
  rw [approveNGO] at h
  split at h
  · cases h
  split at h
  · cases h
  next hex =>
  injection h with h
  subst h
  have hex' : (s.ngos ngoWallet).existsFlag = true := by
    cases hfe : (s.ngos ngoWallet).existsFlag
    · exact absurd hfe hex
    · rfl
  refine ⟨?_, ?_, ?_, ?_, hs.nodupAddresses, hs.balance_eq, hs.ids_range,
    hs.nextId_pos, hs.donation_id, hs.donation_absent⟩
  · intro a
    by_cases ha : a = ngoWallet
    · subst ha
      simpa using hs.conserve a
    · simp only [mapUpdate_ne ha]
      exact hs.conserve a
  · intro a
    by_cases ha : a = ngoWallet
    · subst ha
      simpa using hs.received_lt a
    · simp only [mapUpdate_ne ha]
      exact hs.received_lt a
  · intro a ha
    by_cases h : a = ngoWallet
    · subst h
      simp [hex'] at ha
    · simp only [mapUpdate_ne h] at ha ⊢
      exact hs.unregistered a ha
  · intro a
    by_cases h : a = ngoWallet
    · subst h
      simpa [hex'] using hs.mem_addresses a
    · simp only [mapUpdate_ne h]
      exact hs.mem_addresses a

theorem inv_donate {s s' : ContractState} {sender ngoWallet msgValue t : Nat}
    {message : String} (hs : Inv s)
    (h : donate s sender ngoWallet msgValue t message = .ok s') : Inv s' := by
  rw [donate] at h
  split at h
  · cases h
  split at h
  · cases h
  split at h
  · cases h
  split at h
  · cases h
  split at h
  · cases h
  split at h
  · cases h
  next hex hap hv hidOf hrecOf hpendOf =>
  injection h with h
  subst h
  have hex' : (s.ngos ngoWallet).existsFlag = true := by
    cases hfe : (s.ngos ngoWallet).existsFlag
    · exact absurd hfe hex
    · rfl
  have hmem : ngoWallet ∈ s.ngoAddresses := (hs.mem_addresses ngoWallet).mp hex'
  have hidlt : ∀ i ∈ s.donationIds, i < s.nextDonationId := by
    intro i hi
    rw [hs.ids_range] at hi
    have := List.mem_range'_1.mp hi
    omega
  refine ⟨?_, ?_, ?_, ?_, hs.nodupAddresses, ?_, ?_, ?_, ?_, ?_⟩
  · intro a
    by_cases ha : a = ngoWallet
    · subst ha
      have := hs.conserve a
      simp only [mapUpdate_same]
      omega
    · simp only [mapUpdate_ne ha]
      exact hs.conserve a
  · intro a
    by_cases ha : a = ngoWallet
    · subst ha
      simp only [mapUpdate_same]
      omega
    · simp only [mapUpdate_ne ha]
      exact hs.received_lt a
  · intro a ha
    by_cases h : a = ngoWallet
    · subst h
      simp [hex'] at ha
    · simp only [mapUpdate_ne h] at ha ⊢
      exact hs.unregistered a ha
  · intro a
    by_cases h : a = ngoWallet
    · subst h
      simpa [hex'] using hs.mem_addresses a
    · simp only [mapUpdate_ne h]
      exact hs.mem_addresses a
  · have hsum := sum_map_update s.ngoAddresses s.pendingWithdrawals ngoWallet
      (s.pendingWithdrawals ngoWallet + msgValue) hs.nodupAddresses hmem
    have hbal := hs.balance_eq
    dsimp only
    omega
  · dsimp only
    rw [hs.ids_range]
    have h1 : s.nextDonationId + 1 - 1 = (s.nextDonationId - 1) + 1 := by
      have := hs.nextId_pos; omega
    rw [h1, List.range'_1_concat]
    have h2 : 1 + (s.nextDonationId - 1) = s.nextDonationId := by
      have := hs.nextId_pos; omega
    rw [h2]
  · dsimp only
    have := hs.nextId_pos; omega
  · intro i hi
    dsimp only at hi ⊢
    rcases List.mem_append.mp hi with hi | hi
    · have hne : i ≠ s.nextDonationId := by
        have := hidlt i hi; omega
      simp only [mapUpdate_ne hne]
      exact hs.donation_id i hi
    · have hieq : i = s.nextDonationId := by simpa using hi
      subst hieq
      simp
  · intro i hi
    dsimp only at hi ⊢
    simp only [List.mem_append, List.mem_singleton, not_or] at hi
    simp only [mapUpdate_ne hi.2]
    exact hs.donation_absent i hi.1

theorem inv_addProof {s s' : ContractState} {sender donationId : Nat}
    {cid : String} (hs : Inv s)
    (h : addProof s sender donationId cid = .ok s') : Inv s' := by
  rw [addProof] at h
  split at h
  · cases h
  split at h
  · cases h
  split at h
  · cases h
  split at h
  · cases h
  next hmod hid hrec hproof =>
  injection h with h
  subst h
  have hmem : donationId ∈ s.donationIds := by
    by_contra hno
    have := hs.donation_absent donationId hno
    rw [this] at hid
    exact hid rfl
  refine ⟨hs.conserve, hs.received_lt, hs.unregistered, hs.mem_addresses,
    hs.nodupAddresses, hs.balance_eq, hs.ids_range, hs.nextId_pos, ?_, ?_⟩
  · intro i hi
    dsimp only at hi ⊢
    by_cases h : i = donationId
    · subst h
      simp only [mapUpdate_same]
      exact hs.donation_id i hi
    · simp only [mapUpdate_ne h]
      exact hs.donation_id i hi
  · intro i hi
    dsimp only at hi ⊢
    have hne : i ≠ donationId := fun e => hi (e ▸ hmem)
    simp only [mapUpdate_ne hne]
    exact hs.donation_absent i hi

theorem inv_withdraw {s s' : ContractState} {sender amount : Nat}
    {payoutOk : Bool} (hs : Inv s)
    (h : withdraw s sender amount payoutOk = .ok s') : Inv s' := by
  rw [withdraw] at h
  split at h
  · cases h
  split at h
  · cases h
  split at h
  · cases h
  split at h
  · cases h
  split at h
  · cases h
  next hmod hz hins hof hpo =>
  injection h with h
  subst h
  have hmod' : (s.ngos sender).existsFlag = true ∧ (s.ngos sender).approved = true := by
    cases hfe : (s.ngos sender).existsFlag <;> cases hfa : (s.ngos sender).approved
    all_goals simp [hfe, hfa] at hmod ⊢
  have hle : amount ≤ s.pendingWithdrawals sender := by omega
  have hmem : sender ∈ s.ngoAddresses := (hs.mem_addresses sender).mp hmod'.1
  refine ⟨?_, ?_, ?_, ?_, hs.nodupAddresses, ?_, hs.ids_range, hs.nextId_pos,
    hs.donation_id, hs.donation_absent⟩
  · intro a
    by_cases ha : a = sender
    · subst ha
      have := hs.conserve a
      simp only [mapUpdate_same]
      omega
    · simp only [mapUpdate_ne ha]
      exact hs.conserve a
  · intro a
    by_cases ha : a = sender
    · subst ha
      simpa using hs.received_lt a
    · simp only [mapUpdate_ne ha]
      exact hs.received_lt a
  · intro a ha
    by_cases h : a = sender
    · subst h
      simp [hmod'.1] at ha
    · simp only [mapUpdate_ne h] at ha ⊢
      exact hs.unregistered a ha
  · intro a
    by_cases h : a = sender
    · subst h
      simpa [hmod'.1] using hs.mem_addresses a
    · simp only [mapUpdate_ne h]
      exact hs.mem_addresses a
  · have hsum := sum_map_update s.ngoAddresses s.pendingWithdrawals sender
      (s.pendingWithdrawals sender - amount) hs.nodupAddresses hmem
    have hub := le_sum_of_mem s.ngoAddresses s.pendingWithdrawals sender hmem
    have hbal := hs.balance_eq
    dsimp only
    omega

theorem inv_transferOwnership {s s' : ContractState} {sender newOwner : Nat}
    (hs : Inv s) (h : transferOwnership s sender newOwner = .ok s') : Inv s' := by
  rw [transferOwnership] at h
  split at h
  · cases h
  split at h
  · cases h
  injection h with h
  subst h
  exact ⟨hs.conserve, hs.received_lt, hs.unregistered, hs.mem_addresses,
    hs.nodupAddresses, hs.balance_eq, hs.ids_range, hs.nextId_pos,
    hs.donation_id, hs.donation_absent⟩

theorem inv_step (s : ContractState) (op : Op) (hs : Inv s) :
    Inv (step s op) := by
  unfold step
  cases hap : apply s op with
  | error e => exact hs
  | ok s' =>
    cases op with
    | register sender n m d w c => exact inv_registerNGO hs hap
    | approve sender w a => exact inv_approveNGO hs hap
    | donate sender w v t msg => exact inv_donate hs hap
    | addProof sender i cid => exact inv_addProof hs hap
    | withdraw sender a ok => exact inv_withdraw hs hap
    | transferOwnership sender o => exact inv_transferOwnership hs hap

theorem inv_foldl (ops : List Op) :
    ∀ s : ContractState, Inv s → Inv (ops.foldl step s) := by
  induction ops with
  | nil => exact fun _ hs => hs
  | cons op t ih => exact fun s hs => ih _ (inv_step s op hs)

/-- Every state reachable by a transaction sequence satisfies the invariant. -/
theorem inv_execOps (deployer : Nat) (ops : List Op) :
    Inv (execOps deployer ops) :=
  inv_foldl ops _ (inv_init deployer)

theorem string_length_ne_zero {s : String} (h : s ≠ "") : s.length ≠ 0 := by
  intro h0
  exact h (String.ext_iff.mpr (List.length_eq_zero.mp h0))

theorem foldl_append_filter (dons : Nat → Donation) (w : Nat) :
    ∀ (l acc : List Nat),
      l.foldl (fun acc i => if (dons i).ngo = w then acc ++ [i] else acc) acc
        = acc ++ l.filter (fun i => (dons i).ngo == w) := by
  intro l
  induction l with
  | nil => intro acc; simp
  | cons a t ih =>
    intro acc
    by_cases h : (dons a).ngo = w
    · simp [List.filter_cons, h, ih]
    · simp [List.filter_cons, h, ih]

/-- `getDonationsByNGO` computes the filter of the id list by the stored
record's `ngo` field, in the order of `donationIds`. -/
theorem getDonationsByNGO_eq_filter (s : ContractState) (w : Nat) :
    getDonationsByNGO s w
      = s.donationIds.filter (fun i => (s.donations i).ngo == w) := by
  rw [getDonationsByNGO]
  exact foldl_append_filter s.donations w s.donationIds []

theorem foldl_pair_fst {α : Type} (f : α → Nat → α) (l : List Nat) :
    ∀ (a : α) (c : Nat),
      (l.foldl (fun (p : α × Nat) i => (f p.1 i, p.2 + 1)) (a, c)).1
        = l.foldl f a := by
  induction l with
  | nil => intro a c; rfl
  | cons i t ih => intro a c; exact ih (f a i) (c + 1)

theorem foldl_pair_snd {α : Type} (f : α → Nat → α) (l : List Nat) :
    ∀ (a : α) (c : Nat),
      (l.foldl (fun (p : α × Nat) i => (f p.1 i, p.2 + 1)) (a, c)).2
        = c + l.length := by
  induction l with
  | nil => intro a c; simp
  | cons i t ih =>
    intro a c
    have := ih (f a i) (c + 1)
    simp only [List.foldl_cons, List.length_cons, this]
    omega

/-- A concrete run used by the closed witnesses and counterexamples:
organization `1` is registered and approved and receives donations `1, 2, 3`
(amounts 100, 50, 25); organization `4` is registered but never approved. -/
def demoOps : List Op :=
  [Op.register 1 "Alpha Relief" "meta" "desc" "site" "mail",
   Op.register 4 "Beta Aid" "" "d" "" "",
   Op.approve 0 1 true,
   Op.donate 2 1 100 10 "hi",
   Op.donate 3 1 50 11 "yo",
   Op.donate 2 1 25 12 ""]

/-- The state after `demoOps`, deployed by address `0`. -/
def demoState : ContractState := execOps 0 demoOps

/-- C1: Conservation invariant: for every organization, in every state
reachable by any operation sequence, `totalWithdrawn ≤ totalReceived` and
`pendingWithdrawal + totalWithdrawn = totalReceived` (the pending balance is a
`Nat`, so `pendingWithdrawal ≥ 0` holds by type). -/
theorem conservation_invariant (deployer : Nat) (ops : List Op) (a : Nat) :
    ((execOps deployer ops).ngos a).totalWithdrawn
        ≤ ((execOps deployer ops).ngos a).totalReceived ∧
    (execOps deployer ops).pendingWithdrawals a
        + ((execOps deployer ops).ngos a).totalWithdrawn
        = ((execOps deployer ops).ngos a).totalReceived := by
  have h := (inv_execOps deployer ops).conserve a
  exact ⟨by omega, h⟩

/-- C2: Across any operation sequence the stored donation ids are exactly
`1, 2, …, nextDonationId - 1` — strictly increasing from 1, no gaps, no reuse
— and a failed `donate` call leaves the next-donation-id counter unchanged. -/
theorem donation_ids_dense (deployer : Nat) (ops : List Op) :
    (execOps deployer ops).donationIds
        = List.range' 1 ((execOps deployer ops).nextDonationId - 1) ∧
    1 ≤ (execOps deployer ops).nextDonationId ∧
    ∀ (s : ContractState) (sender w v t : Nat) (msg : String) (e : Err),
      donate s sender w v t msg = Except.error e →
      (step s (Op.donate sender w v t msg)).nextDonationId
        = s.nextDonationId := by
  refine ⟨(inv_execOps deployer ops).ids_range,
    (inv_execOps deployer ops).nextId_pos, ?_⟩
  intro s sender w v t msg e he
  simp [step, apply, he]

/-- C3: An approved organization's `withdraw` with `0 < amount ≤ pending`
whose external payout fails returns the transfer-failure error and commits
nothing: the post-call state is the pre-call state, so the pending balance and
both accumulators keep their pre-call values (in the contract the `require`
on the payout result reverts the debit of step 2). -/
theorem withdraw_failed_payout_rollback (s : ContractState)
    (sender amount : Nat)
    (hex : (s.ngos sender).existsFlag = true)
    (hap : (s.ngos sender).approved = true)
    (hpos : 0 < amount)
    (hle : amount ≤ s.pendingWithdrawals sender)
    (hnof : (s.ngos sender).totalWithdrawn + amount < UINT_MAX) :
    withdraw s sender amount false = Except.error Err.withdrawalFailed ∧
    step s (Op.withdraw sender amount false) = s := by
  have h1 : ¬ amount = 0 := by omega
  have h2 : ¬ s.pendingWithdrawals sender < amount := by omega
  have h3 : ¬ UINT_MAX ≤ (s.ngos sender).totalWithdrawn + amount := by omega
  have h : withdraw s sender amount false = Except.error Err.withdrawalFailed := by
    rw [withdraw]
    simp [hex, hap, h1, h2, h3]
  exact ⟨h, by simp [step, apply, h]⟩

/-- C3 witness: organization `1` of the demo run (pending balance 175)
withdraws 40 with a failing payout; the call reports the transfer failure and
the state is exactly the pre-call state. -/
theorem withdraw_failed_payout_rollback_witness :
    withdraw demoState 1 40 false = Except.error Err.withdrawalFailed ∧
    step demoState (Op.withdraw 1 40 false) = demoState :=
  withdraw_failed_payout_rollback demoState 1 40 (by decide) (by decide)
    (by decide) (by decide) (by decide)

/-- C4: In every reachable state the custodial balance reported by
`getContractBalance` equals the sum of the pending balances over the
registered organizations; every unregistered address has pending balance 0 and
the organization list has no duplicates, so this sum is the sum over all
organizations. -/
theorem custodial_balance_eq_pending_sum (deployer : Nat) (ops : List Op) :
    getContractBalance (execOps deployer ops)
        = ((execOps deployer ops).ngoAddresses.map
            (execOps deployer ops).pendingWithdrawals).sum ∧
    (∀ a, a ∉ (execOps deployer ops).ngoAddresses →
        (execOps deployer ops).pendingWithdrawals a = 0) ∧
    (execOps deployer ops).ngoAddresses.Nodup := by
  have hinv := inv_execOps deployer ops
  refine ⟨hinv.balance_eq, ?_, hinv.nodupAddresses⟩
  intro a ha
  have hfe : ((execOps deployer ops).ngos a).existsFlag = false := by
    cases hfe : ((execOps deployer ops).ngos a).existsFlag
    · rfl
    · exact absurd ((hinv.mem_addresses a).mp hfe) ha
  exact (hinv.unregistered a hfe).2

/-- C5: `donate` to an organization that exists but is not approved fails with
the not-approved error and, under the transaction semantics, changes nothing:
no donation record, no accumulator update, no counter advance. -/
theorem donate_unapproved_rejected (s : ContractState)
    (sender w v t : Nat) (msg : String)
    (hex : (s.ngos w).existsFlag = true)
    (hap : (s.ngos w).approved = false) :
    donate s sender w v t msg = Except.error Err.ngoNotApproved ∧
    step s (Op.donate sender w v t msg) = s := by
  have h : donate s sender w v t msg = Except.error Err.ngoNotApproved := by
    rw [donate]
    simp [hex, hap]
  exact ⟨h, by simp [step, apply, h]⟩

/-- C5 witness: donating to the registered but unapproved organization `4` of
the demo run fails with the not-approved error and leaves the state
unchanged. -/
theorem donate_unapproved_rejected_witness :
    donate demoState 2 4 10 0 "x" = Except.error Err.ngoNotApproved ∧
    step demoState (Op.donate 2 4 10 0 "x") = demoState :=
  donate_unapproved_rejected demoState 2 4 10 0 "x" (by decide) (by decide)

/-- C6 counterexample: the claim "after a successful `addProof` call, any
second `addProof` on the same donation fails with `ConflictError`" is false:
on the demo run, `addProof(1, "")` by the recipient succeeds, leaves the
stored `proofCID` empty, and a second `addProof` on donation 1 succeeds as
well — the write-once guard tests only the stored value. -/
theorem addProof_empty_then_second_succeeds :
    (addProof demoState 1 1 "").isOk = true ∧
    ((step demoState (Op.addProof 1 1 "")).donations 1).proofCID = "" ∧
    (addProof (step demoState (Op.addProof 1 1 "")) 1 1 "second").isOk
      = true := by
  refine ⟨?_, ?_, ?_⟩ <;> decide

/-- C6 (amended): after a successful `addProof` whose `proofRef` is
NON-EMPTY, any second `addProof` on the same donation by the approved
recipient organization fails with the proof-already-added conflict, and the
originally stored `proofRef` is retained verbatim. -/
theorem addProof_write_once_nonempty (s s' : ContractState)
    (sender donationId : Nat) (cid : String) (sender2 : Nat) (cid2 : String)
    (hcid : cid ≠ "")
    (h : addProof s sender donationId cid = Except.ok s')
    (hex2 : ((s'.ngos sender2).existsFlag && (s'.ngos sender2).approved) = true)
    (hrec2 : (s'.donations donationId).ngo = sender2) :
    addProof s' sender2 donationId cid2 = Except.error Err.proofAlreadyAdded ∧
    (s'.donations donationId).proofCID = cid := by
  rw [addProof] at h
  split at h
  · cases h
  split at h
  · cases h
  split at h
  · cases h
  split at h
  · cases h
  next hmod hid hrec hproof =>
  injection h with h
  subst h
  simp only [mapUpdate_same] at hrec2 ⊢
  constructor
  · rw [addProof]
    simp only [mapUpdate_same] at hex2
    simp [hex2, hid, hrec2, string_length_ne_zero hcid]
  · trivial

/-- C6 witness for the amended claim: after `addProof(1, "cidXYZ")` on the
demo run, a second call by the recipient fails with the conflict error and
the stored reference is still `"cidXYZ"`. -/
theorem addProof_write_once_nonempty_witness :
    addProof (step demoState (Op.addProof 1 1 "cidXYZ")) 1 1 "other"
        = Except.error Err.proofAlreadyAdded ∧
    ((step demoState (Op.addProof 1 1 "cidXYZ")).donations 1).proofCID
        = "cidXYZ" :=
  addProof_write_once_nonempty demoState
    (step demoState (Op.addProof 1 1 "cidXYZ")) 1 1 "cidXYZ" 1 "other"
    (by decide) rfl (by decide) (by decide)

/-- C7: In every reachable state, `getDonationsByNGO o` returns exactly the
ids whose stored donation record's `ngo` field is `o` — an id is in the result
iff its record exists (`id ≠ 0`) and belongs to `o` — listed in creation (id)
order: the result is the filter of the creation-ordered `donationIds` and is
strictly increasing. -/
theorem list_donations_by_org (deployer : Nat) (ops : List Op) (w : Nat) :
    getDonationsByNGO (execOps deployer ops) w
        = (execOps deployer ops).donationIds.filter
            (fun i => ((execOps deployer ops).donations i).ngo == w) ∧
    (∀ i, i ∈ getDonationsByNGO (execOps deployer ops) w ↔
        (((execOps deployer ops).donations i).id ≠ 0 ∧
          ((execOps deployer ops).donations i).ngo = w)) ∧
    List.Pairwise (· < ·) (getDonationsByNGO (execOps deployer ops) w) := by
  have hinv := inv_execOps deployer ops
  have hfil := getDonationsByNGO_eq_filter (execOps deployer ops) w
  refine ⟨hfil, ?_, ?_⟩
  · intro i
    rw [hfil, List.mem_filter]
    constructor
    · rintro ⟨hmem, hngo⟩
      refine ⟨?_, by simpa using hngo⟩
      have hid := hinv.donation_id i hmem
      have h1 : 1 ≤ i := by
        have := hinv.ids_range ▸ hmem
        have := List.mem_range'_1.mp this
        omega
      omega
    · rintro ⟨hid, hngo⟩
      refine ⟨?_, by simpa using hngo⟩
      by_contra hno
      rw [hinv.donation_absent i hno] at hid
      exact hid rfl
  · rw [hfil, hinv.ids_range]
    exact List.Pairwise.sublist (List.filter_sublist _)
      (List.pairwise_lt_range' 1 _ 1)

/-- C8: Re-registering an identity that already has an organization record
fails with the already-registered conflict, and the failed transaction leaves
the whole state — the record and the registered-organization list — unchanged. -/
theorem register_duplicate_rejected (s : ContractState) (sender : Nat)
    (n m d w c : String) (hex : (s.ngos sender).existsFlag = true) :
    registerNGO s sender n m d w c = Except.error Err.alreadyRegistered ∧
    step s (Op.register sender n m d w c) = s := by
  have h : registerNGO s sender n m d w c
      = Except.error Err.alreadyRegistered := by
    rw [registerNGO]
    simp [hex]
  exact ⟨h, by simp [step, apply, h]⟩

/-- C8 witness: registering address `1` a second time on the demo run fails
with the conflict error and leaves the state unchanged. -/
theorem register_duplicate_rejected_witness :
    registerNGO demoState 1 "Dup" "" "" "" ""
        = Except.error Err.alreadyRegistered ∧
    step demoState (Op.register 1 "Dup" "" "" "" "") = demoState :=
  register_duplicate_rejected demoState 1 "Dup" "" "" "" "" (by decide)

/-- C9 counterexample: the claim that `getDonationsByNGO` is served from an
incrementally maintained secondary index and is "not a linear double-scan over
all donations" is false of the code: on the demo run (3 donations, all to
organization 1), querying organization 5 — which has no donations — returns
`[]` yet the two source loops read all `2 × 3 = 6` entries of `donationIds`. -/
theorem list_by_org_scan_counterexample :
    getDonationsByNGO demoState 5 = [] ∧
    (getDonationsByNGOInstr demoState 5).2 = 6 ∧
    demoState.donationIds.length = 3 := by
  refine ⟨?_, ?_, ?_⟩ <;> decide

/-- C9 (amended): `getDonationsByNGO` is computed at query time by a linear
double-scan over the full donation-id list — the two loops read `2 · n`
entries where `n` is the total number of donations, independent of the queried
organization and of the result size; no per-organization secondary index
exists in the contract state or is maintained by `donate`. -/
theorem list_by_org_double_scan (s : ContractState) (w : Nat) :
    (getDonationsByNGOInstr s w).1 = getDonationsByNGO s w ∧
    (getDonationsByNGOInstr s w).2 = 2 * s.donationIds.length := by
  constructor
  · rw [getDonationsByNGOInstr, getDonationsByNGO]
    exact foldl_pair_fst
      (fun acc i => if (s.donations i).ngo = w then acc ++ [i] else acc)
      s.donationIds [] 0
  · rw [getDonationsByNGOInstr]
    have h1 := foldl_pair_snd
      (fun x i => if (s.donations i).ngo = w then x + 1 else x)
      s.donationIds 0 0
    have h2 := foldl_pair_snd
      (fun acc i => if (s.donations i).ngo = w then acc ++ [i] else acc)
      s.donationIds [] 0
    dsimp only
    omega

/-- C10: If the approved recipient calls `addProof` with an EMPTY `proofRef`,
the call succeeds but the stored `proofRef` stays empty, and a subsequent
`addProof` on the same donation still succeeds: the write-once guard tests
only emptiness of the stored value, never the argument. -/
theorem addProof_empty_cid_not_terminal (s s' : ContractState)
    (sender donationId : Nat) (cid2 : String)
    (h : addProof s sender donationId "" = Except.ok s') :
    (s'.donations donationId).proofCID = "" ∧
    (addProof s' sender donationId cid2).isOk = true := by
  rw [addProof] at h
  split at h
  · cases h
  split at h
  · cases h
  split at h
  · cases h
  split at h
  · cases h
  next hmod hid hrec hproof =>
  injection h with h
  subst h
  refine ⟨by simp, ?_⟩
  rw [addProof]
  simp only [mapUpdate_same]
  have hrec' : (s.donations donationId).ngo = sender := by
    by_contra hne
    exact hrec hne
  simp [hmod, hid, hrec', Except.isOk, Except.toBool]

/-- C10 witness: on the demo run the recipient adds an empty proof to
donation 1; the stored reference stays empty and a later `addProof` with a
real reference still succeeds. -/
theorem addProof_empty_cid_not_terminal_witness :
    ((step demoState (Op.addProof 1 1 "")).donations 1).proofCID = "" ∧
    (addProof (step demoState (Op.addProof 1 1 "")) 1 1 "cidXYZ").isOk
      = true :=
  addProof_empty_cid_not_terminal demoState
    (step demoState (Op.addProof 1 1 ""))  1 1 "cidXYZ" rfl

end DonationTracker
